import Mathlib

/-!
Shallow embedding of `plenum/server/primary_selector.py` (class
`PrimarySelector`): the primary-selection sub-protocol of a BFT consensus
node.  Python mutable state becomes explicit state passing on
`SelectorState`; dicts become insertion-ordered association lists with the
same key semantics; logging (`self.discard`, `logger.*`) is a no-op and is
dropped.  Helpers from modules not present in the repository snapshot
(`Replica.generateName` / `Replica.getNodeName`, `get_strong_quorum`,
`mostCommonElement`, `PrimaryDecider.view_change_started`) are modelled from
the specification and marked as such in their doc comments.
-/

namespace PlenumPrimarySelector

/-- Modelled from the spec: `ReplicaName` is a composite identifier of
(NodeName, InstanceId), deterministically derivable from either part
(`plenum/server/replica.py` is not in the snapshot; `Replica.generateName`
builds it and `Replica.getNodeName` projects the node name). -/
structure ReplicaName where
  nodeName : String
  instId : Nat
deriving DecidableEq, Repr

/-- Modelled from the spec: a `LedgerInfo` is an ordered sequence of
per-ledger state summaries; each summary is itself a flat tuple of numbers.
Order matters for equality between votes (the source converts to a tuple of
tuples before comparing). -/
abbrev LedgerInfo := List (List Nat)

/-- The inbound/outbound `ViewChangeDone` message: the claimed new primary's
replica name, the instance id, the view number, and the ledger info. -/
structure ViewChangeDone where
  name : ReplicaName
  instId : Nat
  viewNo : Nat
  ledgerInfo : LedgerInfo
deriving DecidableEq, Repr

/-- Source `Replica.generateName(nodeName, instId)`: modelled from the spec as the
constructor of the composite `ReplicaName`. -/
def generateName (nodeName : String) (instId : Nat) : ReplicaName :=
  ⟨nodeName, instId⟩

/-- Source `Replica.getNodeName(replica_name)`: modelled from the spec as the node
name component of a `ReplicaName`. -/
def getNodeName (r : ReplicaName) : String :=
  r.nodeName

/-- Source `get_strong_quorum(f)` from `plenum.common.util` (not in the snapshot):
modelled from the spec, which fixes it to `2f + 1`. -/
def get_strong_quorum (f : Nat) : Nat :=
  2 * f + 1

/-- The multiplicity of `a` in `l` (Python's `list.count` / `Counter`),
written with decidable equality. -/
def countEq {α : Type} [DecidableEq α] (l : List α) (a : α) : Nat :=
  l.countP (fun x => x = a)

/-- Source `mostCommonElement` from `plenum.common.util` (not in the snapshot):
modelled from the spec as returning a most frequent element of the list
(ties broken arbitrarily; this model keeps the earliest maximal element),
or nothing for an empty list. -/
def mostCommonElement {α : Type} [DecidableEq α] (l : List α) : Option α :=
  l.foldl
    (fun acc x =>
      match acc with
      | none => some x
      | some b => if countEq l b < countEq l x then some x else some b)
    none

/-- Insertion-ordered association-list lookup, matching Python dict
`d[k]` / `k in d` semantics. -/
def alookup {α β : Type} [DecidableEq α] : List (α × β) → α → Option β
  | [], _ => none
  | (k, v) :: rest, key => if k = key then some v else alookup rest key

/-- Insertion-ordered association-list update, matching Python dict
`d[k] = v` semantics: replace in place if the key is present, else append. -/
def aset {α β : Type} [DecidableEq α] : List (α × β) → α → β → List (α × β)
  | [], k, v => [(k, v)]
  | (k', v') :: rest, k, v =>
      if k' = k then (k', v) :: rest else (k', v') :: aset rest k v

/-- One instance's voter map: voter `ReplicaName` to the vote data
`(claimed primary ReplicaName, LedgerInfo)` — the inner dict of
`self._view_change_done`. -/
abbrev VoteMap := List (ReplicaName × (ReplicaName × LedgerInfo))

/-- The mutable state of a `PrimarySelector` together with the collaborator
state it reads: current view number, fault bound `f`, the node roster
(`totalNodes` and the rank-to-name table behind `node.get_name_by_rank`),
this node's own name, `previous_master_primary`, the vote ledger
`_view_change_done` (instance id to voter map), each replica's current
primary (`replicas[i].primaryName`), and the node's own `ledger_info`. -/
structure SelectorState where
  viewNo : Nat
  f : Nat
  totalNodes : Nat
  name : String
  nodeReg : List String
  previous_master_primary : Option String
  view_change_done : List (Nat × VoteMap)
  primaries : List (Option ReplicaName)
  ledgerInfo : LedgerInfo
deriving DecidableEq, Repr

/-- Source `node.get_name_by_rank(rank)`: modelled from the spec's node-rank table
as indexing the roster list by rank. -/
def get_name_by_rank (s : SelectorState) (rank : Nat) : String :=
  s.nodeReg.getD rank ""

/-- Source `_is_master_instance`: instance 0 is always master. -/
def is_master_instance (instance_id : Nat) : Bool :=
  instance_id == 0

/-- Source expression `self._view_change_done.get(instance_id, ...)` with an empty-map default: the voter map recorded
for an instance, defaulting to the empty map. -/
def declarations_of (s : SelectorState) (instance_id : Nat) : VoteMap :=
  (alookup s.view_change_done instance_id).getD []

/-- Source `_who_is_the_next_primary`: the replica name of the node at rank
`(viewNo + instance_id) % totalNodes` for this instance. -/
def who_is_the_next_primary (s : SelectorState) (instance_id : Nat) : ReplicaName :=
  let new_primary_id := (s.viewNo + instance_id) % s.totalNodes
  generateName (get_name_by_rank s new_primary_id) instance_id

/-- Source `_track_view_change_done`: create the instance's voter map if missing,
reject if this voter already has an entry, otherwise record the vote. -/
def track_view_change_done (s : SelectorState) (instance_id : Nat)
    (sender_replica_name new_primary_replica_name : ReplicaName)
    (ledger_info : LedgerInfo) : Bool × SelectorState :=
  let data := (new_primary_replica_name, ledger_info)
  match alookup s.view_change_done instance_id with
  | none =>
      let vcd := aset s.view_change_done instance_id [(sender_replica_name, data)]
      (true, { s with view_change_done := vcd })
  | some m =>
      if (alookup m sender_replica_name).isSome then
        (false, s)
      else
        let vcd := aset s.view_change_done instance_id
          (m ++ [(sender_replica_name, data)])
        (true, { s with view_change_done := vcd })

/-- Source `replicas[instance_id].hasPrimary` (replica collaborator state). -/
def replicaHasPrimary (s : SelectorState) (instance_id : Nat) : Bool :=
  (s.primaries.getD instance_id none).isSome

/-- Source `_hasViewChangeQuorum`: at least `2f + 1` recorded voters for the
instance. -/
def hasViewChangeQuorum (s : SelectorState) (instance_id : Nat) : Bool :=
  let declarations := declarations_of s instance_id
  get_strong_quorum s.f ≤ declarations.length

/-- Source `has_view_change_from_primary`: a vote is recorded from the replica that
`_who_is_the_next_primary` designates. -/
def has_view_change_from_primary (s : SelectorState) (instance_id : Nat) : Bool :=
  let declarations := declarations_of s instance_id
  (alookup declarations (who_is_the_next_primary s instance_id)).isSome

/-- Source `has_sufficient_same_view_change_done_messages`: the most common
`(claimed primary, ledger_info)` pair among the instance's recorded votes,
provided its count reaches the strong quorum; otherwise nothing. -/
def has_sufficient_same_view_change_done_messages (s : SelectorState)
    (instance_id : Nat) : Option (ReplicaName × LedgerInfo) :=
  let votes := (declarations_of s instance_id).map Prod.snd
  match mostCommonElement votes with
  | none => none
  | some (new_primary, ledger_info) =>
      if get_strong_quorum s.f ≤ countEq votes (new_primary, ledger_info) then
        some (new_primary, ledger_info)
      else
        none

/-- Source `_verify_primary_selection`: accept only when the majority's claimed
primary equals the deterministically expected primary (the ledger info is
not checked, as in the source). -/
def verify_primary_selection (s : SelectorState) (instance_id : Nat)
    (new_primary : ReplicaName) (_ledger_info : LedgerInfo) : Bool :=
  new_primary = who_is_the_next_primary s instance_id

/-- Source `_processViewChangeDoneMessage(msg, sender)`: process one inbound vote;
returns whether a primary decision was reached, threading the updated
state. -/
def processViewChangeDoneMessage (s : SelectorState) (msg : ViewChangeDone)
    (sender : String) : Bool × SelectorState :=
  if s.viewNo ≠ msg.viewNo then
    (false, s)
  else
    let new_primary_replica_name := msg.name
    let instance_id := msg.instId
    let ledger_info := msg.ledgerInfo
    let sender_replica_name := generateName sender instance_id
    let new_primary_node_name := getNodeName new_primary_replica_name
    if is_master_instance instance_id ∧
        s.previous_master_primary = some new_primary_node_name then
      (false, s)
    else
      match track_view_change_done s instance_id sender_replica_name
          new_primary_replica_name ledger_info with
      | (false, s₁) => (false, s₁)
      | (true, s₁) =>
        if replicaHasPrimary s₁ instance_id then
          (false, s₁)
        else if ¬ (hasViewChangeQuorum s₁ instance_id ∧
                   has_view_change_from_primary s₁ instance_id) then
          (false, s₁)
        else
          match has_sufficient_same_view_change_done_messages s₁ instance_id with
          | none => (false, s₁)
          | some (np, li) => (verify_primary_selection s₁ instance_id np li, s₁)

/-- Source `get_msgs_for_lagged_nodes`: one reconstructed `ViewChangeDone` per
instance whose voter map records this node's own self-vote, tagged with the
current view number. -/
def get_msgs_for_lagged_nodes (s : SelectorState) : List ViewChangeDone :=
  s.view_change_done.filterMap
    (fun p =>
      let instance_id := p.1
      let self_name := generateName s.name instance_id
      (alookup p.2 self_name).map
        (fun d => ViewChangeDone.mk d.1 instance_id s.viewNo d.2))

/-- Source `_send_view_change_done_message`: broadcast (a no-op in this embedding)
and record the self-vote via `_track_view_change_done`. -/
def send_view_change_done_message (s : SelectorState) (instance_id : Nat)
    (new_primary_name : ReplicaName) (_view_no : Nat) : SelectorState :=
  let ledger_info := s.ledgerInfo
  let replica_name := generateName s.name instance_id
  (track_view_change_done s instance_id replica_name new_primary_name
    ledger_info).2

/-- One iteration of the `_startSelection` loop on a replica without a
primary: compute the expected primary, send and self-record the vote, adopt
the primary locally (`replica.primaryChanged`), and for the master instance
clear `previous_master_primary`. -/
def selection_step (s : SelectorState) (i : Nat) : SelectorState :=
  let new_primary_name := who_is_the_next_primary s i
  let s₁ := send_view_change_done_message s i new_primary_name s.viewNo
  let s₂ := { s₁ with primaries := s₁.primaries.set i (some new_primary_name) }
  if i = 0 then { s₂ with previous_master_primary := none } else s₂

/-- The loop of `_startSelection` from index `i`, with fuel for termination;
returns the final state and the number of `node.primary_found()` calls
made. -/
def startSelectionFrom (s : SelectorState) (i : Nat) : Nat → SelectorState × Nat
  | 0 => (s, 0)
  | fuel + 1 =>
    if h : i < s.primaries.length then
      match s.primaries.get ⟨i, h⟩ with
      | some _ => startSelectionFrom s (i + 1) fuel
      | none =>
        let r := startSelectionFrom (selection_step s i) (i + 1) fuel
        (r.1, r.2 + 1)
    else
      (s, 0)

/-- Source `_startSelection` (reached via `decidePrimaries`): for each replica
without a primary, compute the expected primary, send and self-record the
vote, adopt the primary locally, call `node.primary_found()`, and clear
`previous_master_primary` for the master instance.  The second component
counts the `primary_found` calls. -/
def startSelection (s : SelectorState) : SelectorState × Nat :=
  startSelectionFrom s 0 s.primaries.length

/-- Source `view_change_started(viewNo)`: the base-class part
(`PrimaryDecider.view_change_started`, not in the snapshot) is modelled from
the spec — the view number is monotonically non-decreasing and is advanced
by this external trigger, and the vote reset runs exactly once per
view-change start; on an actual advance every instance's voter map is
cleared (keys kept, maps emptied, as in the source loop). -/
def view_change_started (s : SelectorState) (viewNo : Nat) : SelectorState :=
  if s.viewNo < viewNo then
    let vcd := s.view_change_done.map (fun p => (p.1, ([] : VoteMap)))
    { s with viewNo := viewNo, view_change_done := vcd }
  else
    s

/-- Well-formedness carried by every reachable state: the outer dict has no
duplicate instance keys and each inner dict has no duplicate voter keys
(Python dict keys are unique). -/
def WF (s : SelectorState) : Prop :=
  (s.view_change_done.map Prod.fst).Nodup ∧
    ∀ p ∈ s.view_change_done, (p.2.map Prod.fst).Nodup

instance (s : SelectorState) : Decidable (WF s) := by
  unfold WF; infer_instance

/-- The vote data `(claimed primary, ledger_info)` recorded for voter `r` on
instance `i`, if any. -/
def recorded_vote (s : SelectorState) (i : Nat) (r : ReplicaName) :
    Option (ReplicaName × LedgerInfo) :=
  alookup (declarations_of s i) r

/-- The spec's own description of the round-robin schedule, stated from the
spec's words independently of the source, for the refinement comparison:
compute `rank = (view_no + instance_id) mod total_nodes`, look up the node
name at that rank, and return the corresponding `ReplicaName` for
`instance_id`. -/
def expected_primary_spec (view_no instance_id total_nodes : Nat)
    (rank_to_name : List String) : ReplicaName :=
  ⟨rank_to_name.getD ((view_no + instance_id) % total_nodes) "", instance_id⟩

/-! Concrete data used by the witnesses and counterexamples: a 4-node
roster `A B C D` with `f = 1` in view 1 (so the strong quorum is 3 and the
expected master primary is the node at rank 1, `B`), and a 2-node roster
with `f = 0` in view 0. -/

/-- A sample ledger info: one ledger with summary `(0, 10, 7)`. -/
def li0 : LedgerInfo := [[0, 10, 7]]

/-- Node `A`'s selector state: 4 nodes, `f = 1`, view 1, `A` was the master
primary of the previous view, no votes yet, one instance, no primary. -/
def sA : SelectorState :=
  { viewNo := 1, f := 1, totalNodes := 4, name := "A"
    nodeReg := ["A", "B", "C", "D"]
    previous_master_primary := some "A"
    view_change_done := []
    primaries := [none]
    ledgerInfo := li0 }

/-- A view-1 vote for instance 0 claiming `B` as the new primary. -/
def voteB : ViewChangeDone := ⟨⟨"B", 0⟩, 0, 1, li0⟩

/-- A view-1 vote for instance 0 claiming `A` — the previous master
primary — as the new primary. -/
def voteA : ViewChangeDone := ⟨⟨"A", 0⟩, 0, 1, li0⟩

/-- A view-0 (stale) vote for instance 0 claiming `B`. -/
def voteStale : ViewChangeDone := ⟨⟨"B", 0⟩, 0, 0, li0⟩

/-- State `sA` after recording `C`'s vote for `B`. -/
def sAC : SelectorState := (processViewChangeDoneMessage sA voteB "C").2

/-- State `sA` after recording `B`'s and `C`'s votes for `B` (one vote short of
the quorum of 3). -/
def sBC : SelectorState :=
  (processViewChangeDoneMessage
    (processViewChangeDoneMessage sA voteB "B").2 voteB "C").2

/-- A view-1 vote for backup instance 1 claiming `A` (the previous master
primary) as its new primary. -/
def vote1A : ViewChangeDone := ⟨⟨"A", 1⟩, 1, 1, li0⟩

/-- A 2-node state (`f = 0`, view 0) where the expected primary for
instance 0 is `A`. -/
def s3c : SelectorState :=
  { viewNo := 0, f := 0, totalNodes := 2, name := "A"
    nodeReg := ["A", "B"]
    previous_master_primary := none
    view_change_done := []
    primaries := [none]
    ledgerInfo := li0 }

/-- A view-0 vote for instance 0 claiming `B` — disagreeing with the
deterministic expectation `A`. -/
def msg3c : ViewChangeDone := ⟨⟨"B", 0⟩, 0, 0, li0⟩

/-- State `sA` after running `_startSelection` (self-vote for `B` recorded). -/
def sSelf : SelectorState := (startSelection sA).1

/-- Like `sA` but with two instances, both without a primary. -/
def s9 : SelectorState := { sA with primaries := [none, none] }

/-- The vote `voteB` replayed with the new view number 2. -/
def voteB2 : ViewChangeDone := ⟨⟨"B", 0⟩, 0, 2, li0⟩

/-- A state agreeing with `sA` on the view number, node count and rank
table but differing elsewhere, for the determinism part of C7. -/
def s7t : SelectorState :=
  { sA with f := 2, previous_master_primary := none
            primaries := [none, none], ledgerInfo := [] }

/-- State `s3c` after recording `A`'s vote claiming `B` (the state in which the
final verification step runs and fails). -/
def s3t : SelectorState :=
  (track_view_change_done s3c 0 (generateName "A" 0) ⟨"B", 0⟩ li0).2

/-! Association-list lemmas (dict semantics). -/

theorem alookup_eq_none_iff {α β : Type} [DecidableEq α] (d : List (α × β)) (k : α) :
    alookup d k = none ↔ k ∉ d.map Prod.fst := by
  induction d with
  | nil => simp [alookup]
  | cons p rest ih =>
      obtain ⟨k', v'⟩ := p
      by_cases h : k' = k
      · subst h
        simp [alookup]
      · simp only [alookup, h, if_false, List.map_cons, List.mem_cons, ih]
        constructor
        · intro hn
          rintro (hkk | hm)
          · exact h hkk.symm
          · exact hn hm
        · intro hn hm
          exact hn (Or.inr hm)

theorem alookup_isSome_iff {α β : Type} [DecidableEq α] (d : List (α × β)) (k : α) :
    (alookup d k).isSome ↔ k ∈ d.map Prod.fst := by
  induction d with
  | nil => simp [alookup]
  | cons p rest ih =>
      obtain ⟨k', v'⟩ := p
      by_cases h : k' = k
      · subst h
        simp [alookup]
      · simp only [alookup, h, if_false, List.map_cons, List.mem_cons, ih]
        constructor
        · intro hm
          exact Or.inr hm
        · rintro (hkk | hm)
          · exact absurd hkk.symm h
          · exact hm

theorem alookup_mem {α β : Type} [DecidableEq α] {d : List (α × β)} {k : α} {v : β}
    (h : alookup d k = some v) : (k, v) ∈ d := by
  induction d with
  | nil => simp [alookup] at h
  | cons p rest ih =>
      obtain ⟨k', v'⟩ := p
      by_cases hk : k' = k
      · simp [alookup, hk] at h
        subst hk h
        exact List.mem_cons_self _ _
      · simp [alookup, hk] at h
        exact List.mem_cons_of_mem _ (ih h)

theorem alookup_append_of_none {α β : Type} [DecidableEq α]
    {d₁ : List (α × β)} (d₂ : List (α × β)) {k : α} (h : alookup d₁ k = none) :
    alookup (d₁ ++ d₂) k = alookup d₂ k := by
  induction d₁ with
  | nil => rfl
  | cons p rest ih =>
      obtain ⟨k', v'⟩ := p
      by_cases hk : k' = k
      · simp [alookup, hk] at h
      · simp only [alookup, hk, List.cons_append, if_false] at h ⊢
        exact ih h

theorem alookup_aset_self {α β : Type} [DecidableEq α] (d : List (α × β)) (k : α) (v : β) :
    alookup (aset d k v) k = some v := by
  induction d with
  | nil => simp [aset, alookup]
  | cons p rest ih =>
      obtain ⟨k', v'⟩ := p
      by_cases hk : k' = k <;> simp [aset, alookup, hk, ih]

theorem aset_of_none {α β : Type} [DecidableEq α] {d : List (α × β)} {k : α}
    (v : β) (h : alookup d k = none) : aset d k v = d ++ [(k, v)] := by
  induction d with
  | nil => rfl
  | cons p rest ih =>
      obtain ⟨k', v'⟩ := p
      by_cases hk : k' = k
      · simp [alookup, hk] at h
      · simp only [alookup, hk, if_false] at h
        simp [aset, hk, ih h]

theorem map_fst_aset_of_some {α β : Type} [DecidableEq α] {d : List (α × β)} {k : α}
    {w : β} (v : β) (h : alookup d k = some w) :
    (aset d k v).map Prod.fst = d.map Prod.fst := by
  induction d with
  | nil => simp [alookup] at h
  | cons p rest ih =>
      obtain ⟨k', v'⟩ := p
      by_cases hk : k' = k
      · simp [aset, hk]
      · simp only [alookup, hk, if_false] at h
        simp [aset, hk, ih h]

theorem mem_aset {α β : Type} [DecidableEq α] {d : List (α × β)} {k : α} {v : β}
    {p : α × β} (h : p ∈ aset d k v) : p ∈ d ∨ p = (k, v) := by
  induction d with
  | nil =>
      simp only [aset, List.mem_singleton] at h
      exact Or.inr h
  | cons q rest ih =>
      obtain ⟨k', v'⟩ := q
      simp only [aset] at h ih
      by_cases hk : k' = k
      · rw [if_pos hk] at h
        rcases List.mem_cons.mp h with h | h
        · exact Or.inr (by rw [h, hk])
        · exact Or.inl (List.mem_cons_of_mem _ h)
      · rw [if_neg hk] at h
        rcases List.mem_cons.mp h with h | h
        · exact Or.inl (by rw [h]; exact List.mem_cons_self _ _)
        · rcases ih h with h' | h'
          · exact Or.inl (List.mem_cons_of_mem _ h')
          · exact Or.inr h'

/-- The value `alookup` finds for a key `i` in the per-instance map produced
by the view-change reset (every value replaced by the empty map) is the
empty map. -/
theorem alookup_map_empty {α β γ : Type} [DecidableEq α] (d : List (α × β)) (c : γ)
    (i : α) (m : γ) (h : alookup (d.map (fun p => (p.1, c))) i = some m) : m = c := by
  induction d with
  | nil => simp [alookup] at h
  | cons p rest ih =>
      by_cases hk : p.1 = i
      · simp [alookup, hk] at h
        exact h.symm
      · simp only [List.map_cons, alookup, hk, if_false] at h
        exact ih h

/-! `mostCommonElement` returns an element of maximal multiplicity. -/

theorem mce_fold_spec {α : Type} [DecidableEq α] (l : List α) :
    ∀ (l' : List α) (acc : Option α) (b : α),
      l'.foldl
        (fun acc x =>
          match acc with
          | none => some x
          | some c => if countEq l c < countEq l x then some x else some c)
        acc = some b →
      (b ∈ l' ∨ acc = some b) ∧ (∀ x ∈ l', countEq l x ≤ countEq l b) ∧
        (∀ a, acc = some a → countEq l a ≤ countEq l b) := by
  intro l'
  induction l' with
  | nil =>
      intro acc b h
      simp only [List.foldl_nil] at h
      refine ⟨Or.inr h, by simp, fun a ha => ?_⟩
      rw [ha] at h
      cases h
      exact le_refl _
  | cons x tl ih =>
      intro acc b h
      simp only [List.foldl_cons] at h
      rcases acc with _ | a
      · obtain ⟨hmem, htl, hacc⟩ := ih (some x) b h
        have hx : countEq l x ≤ countEq l b := hacc x rfl
        refine ⟨?_, ?_, ?_⟩
        · rcases hmem with hm | hm
          · exact Or.inl (List.mem_cons_of_mem _ hm)
          · exact Or.inl (by rw [← Option.some_inj.mp hm]; exact List.mem_cons_self _ _)
        · intro y hy
          rcases List.mem_cons.mp hy with hy | hy
          · rw [hy]; exact hx
          · exact htl y hy
        · intro a ha
          cases ha
      · have hred : (match some a with
            | none => some x
            | some c => if countEq l c < countEq l x then some x else some c)
            = if countEq l a < countEq l x then some x else some a := rfl
        rw [hred] at h
        by_cases hlt : countEq l a < countEq l x
        · rw [if_pos hlt] at h
          obtain ⟨hmem, htl, hacc⟩ := ih (some x) b h
          have hx : countEq l x ≤ countEq l b := hacc x rfl
          refine ⟨?_, ?_, ?_⟩
          · rcases hmem with hm | hm
            · exact Or.inl (List.mem_cons_of_mem _ hm)
            · exact Or.inl (by rw [← Option.some_inj.mp hm]; exact List.mem_cons_self _ _)
          · intro y hy
            rcases List.mem_cons.mp hy with hy | hy
            · rw [hy]; exact hx
            · exact htl y hy
          · intro c hc
            injection hc with hac
            subst hac
            exact le_trans (le_of_lt hlt) hx
        · rw [if_neg hlt] at h
          obtain ⟨hmem, htl, hacc⟩ := ih (some a) b h
          have ha : countEq l a ≤ countEq l b := hacc a rfl
          have hx : countEq l x ≤ countEq l b := le_trans (le_of_not_lt hlt) ha
          refine ⟨?_, ?_, ?_⟩
          · rcases hmem with hm | hm
            · exact Or.inl (List.mem_cons_of_mem _ hm)
            · exact Or.inr hm
          · intro y hy
            rcases List.mem_cons.mp hy with hy | hy
            · rw [hy]; exact hx
            · exact htl y hy
          · intro c hc
            injection hc with hac
            subst hac
            exact ha

theorem mostCommonElement_spec {α : Type} [DecidableEq α] {l : List α} {b : α}
    (h : mostCommonElement l = some b) :
    b ∈ l ∧ ∀ x ∈ l, countEq l x ≤ countEq l b := by
  obtain ⟨hmem, hall, _⟩ := mce_fold_spec l l none b h
  rcases hmem with hm | hm
  · exact ⟨hm, hall⟩
  · cases hm

/-! Structural lemmas about `_track_view_change_done` and
`_processViewChangeDoneMessage`. -/

theorem track_snd_fields (s : SelectorState) (i : Nat) (r np : ReplicaName)
    (li : LedgerInfo) :
    (track_view_change_done s i r np li).2.viewNo = s.viewNo ∧
    (track_view_change_done s i r np li).2.f = s.f ∧
    (track_view_change_done s i r np li).2.totalNodes = s.totalNodes ∧
    (track_view_change_done s i r np li).2.name = s.name ∧
    (track_view_change_done s i r np li).2.nodeReg = s.nodeReg ∧
    (track_view_change_done s i r np li).2.previous_master_primary
      = s.previous_master_primary ∧
    (track_view_change_done s i r np li).2.primaries = s.primaries ∧
    (track_view_change_done s i r np li).2.ledgerInfo = s.ledgerInfo := by
  rcases hm : alookup s.view_change_done i with _ | m
  · simp [track_view_change_done, hm]
  · by_cases hr : (alookup m r).isSome <;> simp [track_view_change_done, hm, hr]

theorem track_false_eq {s : SelectorState} {i : Nat} {r np : ReplicaName}
    {li : LedgerInfo} (h : (track_view_change_done s i r np li).1 = false) :
    track_view_change_done s i r np li = (false, s) := by
  rcases hm : alookup s.view_change_done i with _ | m
  · simp [track_view_change_done, hm] at h
  · by_cases hr : (alookup m r).isSome
    · simp [track_view_change_done, hm, hr]
    · simp [track_view_change_done, hm, hr] at h

theorem track_fresh {s : SelectorState} {i : Nat} {r : ReplicaName}
    (np : ReplicaName) (li : LedgerInfo) (h : recorded_vote s i r = none) :
    (track_view_change_done s i r np li).1 = true ∧
    recorded_vote (track_view_change_done s i r np li).2 i r = some (np, li) := by
  unfold recorded_vote declarations_of at h ⊢
  rcases hm : alookup s.view_change_done i with _ | m
  · refine ⟨by simp [track_view_change_done, hm], ?_⟩
    simp only [track_view_change_done, hm]
    rw [alookup_aset_self]
    simp [alookup]
  · rw [hm] at h
    simp only [Option.getD_some] at h
    have hr : (alookup m r).isSome = false := by rw [h]; rfl
    refine ⟨by simp [track_view_change_done, hm, hr], ?_⟩
    simp only [track_view_change_done, hm, hr, Bool.false_eq_true, if_false]
    rw [alookup_aset_self]
    simp only [Option.getD_some]
    rw [alookup_append_of_none _ h]
    simp [alookup]

theorem proc_stale {s : SelectorState} {msg : ViewChangeDone} (sender : String)
    (h : s.viewNo ≠ msg.viewNo) :
    processViewChangeDoneMessage s msg sender = (false, s) := by
  unfold processViewChangeDoneMessage
  rw [if_pos h]

theorem proc_anti_flap {s : SelectorState} {msg : ViewChangeDone} (sender : String)
    (hv : s.viewNo = msg.viewNo)
    (haf : is_master_instance msg.instId ∧
      s.previous_master_primary = some (getNodeName msg.name)) :
    processViewChangeDoneMessage s msg sender = (false, s) := by
  unfold processViewChangeDoneMessage
  rw [if_neg (by simp [hv]), if_pos haf]

theorem proc_unfold (s : SelectorState) (msg : ViewChangeDone) (sender : String)
    (hv : s.viewNo = msg.viewNo)
    (haf : ¬ (is_master_instance msg.instId ∧
      s.previous_master_primary = some (getNodeName msg.name))) :
    processViewChangeDoneMessage s msg sender =
      match track_view_change_done s msg.instId (generateName sender msg.instId)
          msg.name msg.ledgerInfo with
      | (false, s₁) => (false, s₁)
      | (true, s₁) =>
        if replicaHasPrimary s₁ msg.instId then (false, s₁)
        else if ¬ (hasViewChangeQuorum s₁ msg.instId ∧
                   has_view_change_from_primary s₁ msg.instId) then (false, s₁)
        else
          match has_sufficient_same_view_change_done_messages s₁ msg.instId with
          | none => (false, s₁)
          | some (np, li) => (verify_primary_selection s₁ msg.instId np li, s₁) := by
  unfold processViewChangeDoneMessage
  rw [if_neg (by simp [hv]), if_neg haf]

theorem proc_snd (s : SelectorState) (msg : ViewChangeDone) (sender : String)
    (hv : s.viewNo = msg.viewNo)
    (haf : ¬ (is_master_instance msg.instId ∧
      s.previous_master_primary = some (getNodeName msg.name))) :
    (processViewChangeDoneMessage s msg sender).2 =
      (track_view_change_done s msg.instId (generateName sender msg.instId)
        msg.name msg.ledgerInfo).2 := by
  rw [proc_unfold s msg sender hv haf]
  rcases htr : track_view_change_done s msg.instId (generateName sender msg.instId)
      msg.name msg.ledgerInfo with ⟨b, s₁⟩
  cases b
  · rfl
  · by_cases h1 : replicaHasPrimary s₁ msg.instId
    · simp [h1]
    · by_cases h2 : hasViewChangeQuorum s₁ msg.instId ∧
        has_view_change_from_primary s₁ msg.instId
      · rcases hs : has_sufficient_same_view_change_done_messages s₁ msg.instId
          with _ | ⟨np, li⟩ <;> simp [h1, h2, hs]
      · simp [h1, h2]

theorem WF_track {s : SelectorState} {i : Nat} {r np : ReplicaName}
    {li : LedgerInfo} (hwf : WF s) :
    WF (track_view_change_done s i r np li).2 := by
  obtain ⟨houter, hinner⟩ := hwf
  rcases hm : alookup s.view_change_done i with _ | m
  · simp only [track_view_change_done, hm]
    rw [aset_of_none _ hm]
    constructor
    · rw [List.map_append, List.nodup_append]
      refine ⟨houter, by simp, ?_⟩
      intro a ha hb
      simp only [List.map_cons, List.map_nil, List.mem_singleton] at hb
      subst hb
      exact (alookup_eq_none_iff _ _).mp hm ha
    · intro p hp
      rcases List.mem_append.mp hp with hp | hp
      · exact hinner p hp
      · simp only [List.mem_singleton] at hp
        subst hp
        simp
  · by_cases hr : (alookup m r).isSome
    · simpa [track_view_change_done, hm, hr] using ⟨houter, hinner⟩
    · simp only [track_view_change_done, hm, hr, Bool.false_eq_true, if_false]
      constructor
      · rw [map_fst_aset_of_some _ hm]
        exact houter
      · intro p hp
        rcases mem_aset hp with hp | hp
        · exact hinner p hp
        · subst hp
          simp only [List.map_append, List.map_cons, List.map_nil]
          rw [List.nodup_append]
          refine ⟨hinner (i, m) (alookup_mem hm), by simp, ?_⟩
          intro a ha hb
          simp only [List.mem_singleton] at hb
          rw [hb] at ha
          have hnone : alookup m r = none := by
            rcases hmr : alookup m r with _ | w
            · rfl
            · rw [hmr] at hr; simp at hr
          exact (alookup_eq_none_iff _ _).mp hnone ha

/-! Claim theorems. -/

/-- C4: a vote whose `view_no` differs from the node's current view number
makes `process_vote` return false, and the selector state — in particular
the VoteLedger `_view_change_done` — is exactly the same after the call as
before it. -/
theorem C4_stale_view_rejected_frame (s : SelectorState) (msg : ViewChangeDone)
    (sender : String) (h : msg.viewNo ≠ s.viewNo) :
    processViewChangeDoneMessage s msg sender = (false, s) :=
  proc_stale sender (fun he => h he.symm)

/-- Witness for C4: node `A` in view 1 rejects `B`'s view-0 vote and its
state is unchanged. -/
theorem C4_stale_view_rejected_frame_witness :
    processViewChangeDoneMessage sA voteStale "B" = (false, sA) :=
  C4_stale_view_rejected_frame sA voteStale "B" (by decide)

/-- C5: once a vote from a sender for an instance is recorded, a second
`process_vote` call from the same sender for the same instance in the same
view returns false with the whole state unchanged, whatever the second
vote's content, and the originally recorded `(claimed_primary, ledger_info)`
entry is still in place afterwards. -/
theorem C5_duplicate_vote_rejected (s : SelectorState) (msg : ViewChangeDone)
    (sender : String) (d : ReplicaName × LedgerInfo)
    (hv : msg.viewNo = s.viewNo)
    (hr : recorded_vote s msg.instId (generateName sender msg.instId) = some d) :
    processViewChangeDoneMessage s msg sender = (false, s) ∧
    recorded_vote (processViewChangeDoneMessage s msg sender).2 msg.instId
      (generateName sender msg.instId) = some d := by
  have hmain : processViewChangeDoneMessage s msg sender = (false, s) := by
    by_cases haf : is_master_instance msg.instId ∧
        s.previous_master_primary = some (getNodeName msg.name)
    · exact proc_anti_flap sender hv.symm haf
    · rw [proc_unfold s msg sender hv.symm haf]
      have htr : track_view_change_done s msg.instId
          (generateName sender msg.instId) msg.name msg.ledgerInfo = (false, s) := by
        unfold recorded_vote declarations_of at hr
        rcases hm : alookup s.view_change_done msg.instId with _ | m
        · rw [hm] at hr
          simp [alookup] at hr
        · rw [hm] at hr
          simp only [Option.getD_some] at hr
          have hsome : (alookup m (generateName sender msg.instId)).isSome := by
            rw [hr]; rfl
          simp [track_view_change_done, hm, hsome]
      rw [htr]
  refine ⟨hmain, ?_⟩
  rw [hmain]
  exact hr

/-- Witness for C5: after `C`'s vote for `B` is recorded, the identical vote
from `C` is rejected and the recorded entry stands. -/
theorem C5_duplicate_vote_rejected_witness :
    processViewChangeDoneMessage sAC voteB "C" = (false, sAC) ∧
    recorded_vote (processViewChangeDoneMessage sAC voteB "C").2 0
      (generateName "C" 0) = some (⟨"B", 0⟩, li0) :=
  C5_duplicate_vote_rejected sAC voteB "C" (⟨"B", 0⟩, li0) (by decide) (by decide)

/-- C2: a vote on the master instance (instance 0) whose claimed primary's
node name equals the stored `previous_master_primary` is rejected with the
state unchanged (so it is never recorded), regardless of the other recorded
votes; and the rule applies only to the master instance — on a non-master
instance a current-view, non-duplicate vote is recorded even when its
claimed primary's node name equals `previous_master_primary`. -/
theorem C2_anti_flap_master_only (s : SelectorState) (msg : ViewChangeDone)
    (sender : String) :
    (msg.instId = 0 →
      s.previous_master_primary = some (getNodeName msg.name) →
      processViewChangeDoneMessage s msg sender = (false, s)) ∧
    (msg.instId ≠ 0 → msg.viewNo = s.viewNo →
      recorded_vote s msg.instId (generateName sender msg.instId) = none →
      recorded_vote (processViewChangeDoneMessage s msg sender).2 msg.instId
        (generateName sender msg.instId) = some (msg.name, msg.ledgerInfo)) := by
  constructor
  · intro hm hp
    by_cases hv : s.viewNo = msg.viewNo
    · exact proc_anti_flap sender hv ⟨by simp [is_master_instance, hm], hp⟩
    · exact proc_stale sender hv
  · intro hm hv hfresh
    have haf : ¬ (is_master_instance msg.instId ∧
        s.previous_master_primary = some (getNodeName msg.name)) := by
      rintro ⟨hmm, _⟩
      simp only [is_master_instance, beq_iff_eq] at hmm
      exact hm hmm
    rw [proc_snd s msg sender hv.symm haf]
    exact (track_fresh msg.name msg.ledgerInfo hfresh).2

/-- Witness for C2: `B`'s vote proposing `A` (the previous master primary)
for master instance 0 is rejected outright, while `C`'s vote proposing `A`
for backup instance 1 is recorded. -/
theorem C2_anti_flap_master_only_witness :
    processViewChangeDoneMessage sA voteA "B" = (false, sA) ∧
    recorded_vote (processViewChangeDoneMessage sA vote1A "C").2 1
      (generateName "C" 1) = some (⟨"A", 1⟩, li0) :=
  ⟨(C2_anti_flap_master_only sA voteA "B").1 (by decide) (by decide),
   (C2_anti_flap_master_only sA vote1A "C").2 (by decide) (by decide) (by decide)⟩

/-- C10: in `process_vote`, a current-view, non-anti-flap, non-duplicate
vote is recorded into the VoteLedger unconditionally — in particular it is
recorded (and counts toward later quorum evaluations) even when the call
returns false because the instance already has a primary or the quorum is
not yet reached. -/
theorem C10_recorded_before_checks (s : SelectorState) (msg : ViewChangeDone)
    (sender : String)
    (hv : msg.viewNo = s.viewNo)
    (haf : ¬ (is_master_instance msg.instId ∧
      s.previous_master_primary = some (getNodeName msg.name)))
    (hfresh : recorded_vote s msg.instId (generateName sender msg.instId) = none) :
    recorded_vote (processViewChangeDoneMessage s msg sender).2 msg.instId
      (generateName sender msg.instId) = some (msg.name, msg.ledgerInfo) := by
  rw [proc_snd s msg sender hv.symm haf]
  exact (track_fresh msg.name msg.ledgerInfo hfresh).2

/-- Witness for C10: `B`'s first vote is below the quorum of 3, so the call
returns false, yet the vote is recorded. -/
theorem C10_recorded_before_checks_witness :
    recorded_vote (processViewChangeDoneMessage sA voteB "B").2 0
      (generateName "B" 0) = some (⟨"B", 0⟩, li0) ∧
    (processViewChangeDoneMessage sA voteB "B").1 = false :=
  ⟨C10_recorded_before_checks sA voteB "B" (by decide) (by decide) (by decide),
   by decide⟩

/-- C6: after `view_change_started` runs for a new (strictly larger) view,
every instance's voter mapping in the VoteLedger is empty, and a vote
identical to one recorded before the reset, processed afterwards with the
new current view number, is recorded as a fresh first vote from that sender
(not rejected as a duplicate). -/
theorem C6_reset_and_replay (s : SelectorState) (v : Nat) (msg : ViewChangeDone)
    (sender : String)
    (hv : s.viewNo < v)
    (hmsg : msg.viewNo = v)
    (hrec : recorded_vote s msg.instId (generateName sender msg.instId)
      = some (msg.name, msg.ledgerInfo))
    (haf : ¬ (is_master_instance msg.instId ∧
      s.previous_master_primary = some (getNodeName msg.name))) :
    (∀ i m, alookup (view_change_started s v).view_change_done i = some m → m = []) ∧
    recorded_vote
      (processViewChangeDoneMessage (view_change_started s v) msg sender).2
      msg.instId (generateName sender msg.instId)
      = some (msg.name, msg.ledgerInfo) := by
  have hs' : view_change_started s v =
      { s with viewNo := v,
               view_change_done :=
                 s.view_change_done.map (fun p => (p.1, ([] : VoteMap))) } := by
    unfold view_change_started
    rw [if_pos hv]
  constructor
  · intro i m hm
    rw [hs'] at hm
    exact alookup_map_empty _ _ _ _ hm
  · have hfresh : recorded_vote (view_change_started s v) msg.instId
        (generateName sender msg.instId) = none := by
      rw [hs']
      show alookup
        ((alookup (s.view_change_done.map (fun p => (p.1, ([] : VoteMap))))
          msg.instId).getD [])
        (generateName sender msg.instId) = none
      rcases hm : alookup (s.view_change_done.map (fun p => (p.1, ([] : VoteMap))))
          msg.instId with _ | m
      · rw [hm]
        rfl
      · have hm0 : m = [] := alookup_map_empty _ _ _ _ hm
        subst hm0
        rw [hm]
        rfl
    have hv' : (view_change_started s v).viewNo = msg.viewNo := by
      rw [hs', hmsg]
    have haf' : ¬ (is_master_instance msg.instId ∧
        (view_change_started s v).previous_master_primary
          = some (getNodeName msg.name)) := by
      rw [hs']
      exact haf
    rw [proc_snd (view_change_started s v) msg sender hv' haf']
    exact (track_fresh msg.name msg.ledgerInfo hfresh).2

/-- Witness for C6: after the view advances from 1 to 2, the ledger is
empty and `C`'s vote, replayed with view number 2, is recorded afresh. -/
theorem C6_reset_and_replay_witness :
    (∀ i m, alookup (view_change_started sAC 2).view_change_done i = some m
      → m = []) ∧
    recorded_vote
      (processViewChangeDoneMessage (view_change_started sAC 2) voteB2 "C").2
      0 (generateName "C" 0) = some (⟨"B", 0⟩, li0) :=
  C6_reset_and_replay sAC 2 voteB2 "C" (by decide) (by decide) (by decide)
    (by decide)

/-- C7: `_who_is_the_next_primary` computes exactly the `ReplicaName` built
for the instance from the node name at rank `(view_no + instance_id) mod
total_nodes` (the spec-side formula `expected_primary_spec`), and it is
deterministic: two states that agree on the view number, the node count and
the rank table yield the identical `ReplicaName` whatever their other
fields.  The embedding is a pure function of the state, so it is
side-effect free by construction. -/
theorem C7_round_robin_expected_primary (s t : SelectorState) (i : Nat)
    (hview : s.viewNo = t.viewNo) (htot : s.totalNodes = t.totalNodes)
    (hreg : s.nodeReg = t.nodeReg) :
    who_is_the_next_primary s i
      = expected_primary_spec s.viewNo i s.totalNodes s.nodeReg ∧
    who_is_the_next_primary s i = who_is_the_next_primary t i := by
  refine ⟨rfl, ?_⟩
  unfold who_is_the_next_primary get_name_by_rank generateName
  rw [hview, htot, hreg]

/-- Witness for C7: in view 1 with 4 nodes the expected master primary is
`B` (rank 1), and a state differing only in fault bound, previous primary,
replicas and ledger info computes the same answer. -/
theorem C7_round_robin_expected_primary_witness :
    (who_is_the_next_primary sA 0
      = expected_primary_spec sA.viewNo 0 sA.totalNodes sA.nodeReg ∧
     who_is_the_next_primary sA 0 = who_is_the_next_primary s7t 0) ∧
    who_is_the_next_primary sA 0 = ⟨"B", 0⟩ :=
  ⟨C7_round_robin_expected_primary sA s7t 0 (by decide) (by decide) (by decide),
   by decide⟩

/-- Counterexample to C3 as stated: in the 2-node, `f = 0` state `s3c`,
`A`'s vote claiming `B` reaches the final verification step (its recorded
majority is `(B, li0)` while the expected primary is `A`), the call returns
false — but the VoteLedger is NOT the same as before the call: the vote was
recorded in step 3 before verification failed. -/
theorem C3_counterexample :
    has_sufficient_same_view_change_done_messages s3t 0 = some (⟨"B", 0⟩, li0) ∧
    (⟨"B", 0⟩ : ReplicaName) ≠ who_is_the_next_primary s3t 0 ∧
    hasViewChangeQuorum s3t 0 = true ∧
    has_view_change_from_primary s3t 0 = true ∧
    (processViewChangeDoneMessage s3c msg3c "A").1 = false ∧
    (processViewChangeDoneMessage s3c msg3c "A").2.view_change_done
      ≠ s3c.view_change_done := by
  decide

/-- C3 (amended): a current-view, non-anti-flap, non-duplicate vote that
reaches the final verification step with a majority claimed primary
different from the expected primary makes `process_vote` return false, and
the call adopts no alternate primary — every replica's primary and the
stored previous master primary are unchanged — but the VoteLedger is not
untouched: it now additionally holds the processed vote itself, recorded in
step 3 before the verification ran. -/
theorem C3_verify_mismatch_frame (s : SelectorState) (msg : ViewChangeDone)
    (sender : String) (s₁ : SelectorState) (np : ReplicaName) (li : LedgerInfo)
    (hv : msg.viewNo = s.viewNo)
    (haf : ¬ (is_master_instance msg.instId ∧
      s.previous_master_primary = some (getNodeName msg.name)))
    (htr : track_view_change_done s msg.instId (generateName sender msg.instId)
      msg.name msg.ledgerInfo = (true, s₁))
    (hnp : replicaHasPrimary s₁ msg.instId = false)
    (hq : hasViewChangeQuorum s₁ msg.instId ∧
      has_view_change_from_primary s₁ msg.instId)
    (hsuf : has_sufficient_same_view_change_done_messages s₁ msg.instId
      = some (np, li))
    (hne : np ≠ who_is_the_next_primary s₁ msg.instId) :
    processViewChangeDoneMessage s msg sender = (false, s₁) ∧
    s₁.primaries = s.primaries ∧
    s₁.previous_master_primary = s.previous_master_primary := by
  have hu := proc_unfold s msg sender hv.symm haf
  rw [htr] at hu
  have hfields := track_snd_fields s msg.instId (generateName sender msg.instId)
    msg.name msg.ledgerInfo
  rw [htr] at hfields
  dsimp only at hfields
  refine ⟨?_, hfields.2.2.2.2.2.2.1, hfields.2.2.2.2.2.1⟩
  rw [hu]
  dsimp only
  rw [if_neg (by rw [hnp]; exact Bool.false_ne_true)]
  rw [if_neg (not_not_intro hq)]
  rw [hsuf]
  dsimp only
  have hver : verify_primary_selection s₁ msg.instId np li = false := by
    unfold verify_primary_selection
    exact decide_eq_false hne
  rw [hver]

/-- Witness for C3 (amended) at the concrete 2-node scenario. -/
theorem C3_verify_mismatch_frame_witness :
    processViewChangeDoneMessage s3c msg3c "A" = (false, s3t) ∧
    s3t.primaries = s3c.primaries ∧
    s3t.previous_master_primary = s3c.previous_master_primary :=
  C3_verify_mismatch_frame s3c msg3c "A" s3t ⟨"B", 0⟩ li0 (by decide) (by decide)
    (by decide) (by decide) (by decide) (by decide) (by decide)

/-- C1: `process_vote` returns true only if all four decision conditions
hold at once on the resulting vote ledger: at least `strong_quorum f`
distinct recorded voters for the instance; a recorded vote from the replica
designated by the expected primary for that instance and view; a most
frequent `(claimed_primary, ledger_info)` pair whose count reaches
`strong_quorum f`; and that pair's claimed primary equal to the expected
primary.  Contrapositively, if any one condition fails the call returns
false. -/
theorem C1_decision_conditions (s : SelectorState) (msg : ViewChangeDone)
    (sender : String) (s₁ : SelectorState) (hwf : WF s)
    (hps : processViewChangeDoneMessage s msg sender = (true, s₁)) :
    ((declarations_of s₁ msg.instId).map Prod.fst).Nodup ∧
    get_strong_quorum s.f ≤ ((declarations_of s₁ msg.instId).map Prod.fst).length ∧
    who_is_the_next_primary s₁ msg.instId
      ∈ (declarations_of s₁ msg.instId).map Prod.fst ∧
    ∃ p : ReplicaName × LedgerInfo,
      p ∈ (declarations_of s₁ msg.instId).map Prod.snd ∧
      (∀ q ∈ (declarations_of s₁ msg.instId).map Prod.snd,
        countEq ((declarations_of s₁ msg.instId).map Prod.snd) q
          ≤ countEq ((declarations_of s₁ msg.instId).map Prod.snd) p) ∧
      get_strong_quorum s.f
        ≤ countEq ((declarations_of s₁ msg.instId).map Prod.snd) p ∧
      p.1 = who_is_the_next_primary s₁ msg.instId := by
  have hv : s.viewNo = msg.viewNo := by
    by_contra hv
    rw [proc_stale sender hv] at hps
    simp at hps
  have haf : ¬ (is_master_instance msg.instId ∧
      s.previous_master_primary = some (getNodeName msg.name)) := by
    intro haf
    rw [proc_anti_flap sender hv haf] at hps
    simp at hps
  have hu := proc_unfold s msg sender hv haf
  rcases htr : track_view_change_done s msg.instId (generateName sender msg.instId)
      msg.name msg.ledgerInfo with ⟨b, t⟩
  rw [htr] at hu
  rw [hu] at hps
  cases b
  · simp at hps
  · dsimp only at hps
    by_cases h1 : replicaHasPrimary t msg.instId
    · rw [if_pos h1] at hps
      simp at hps
    · rw [if_neg h1] at hps
      by_cases h2 : hasViewChangeQuorum t msg.instId ∧
          has_view_change_from_primary t msg.instId
      · rw [if_neg (not_not_intro h2)] at hps
        rcases hsuf : has_sufficient_same_view_change_done_messages t msg.instId
            with _ | ⟨np, li⟩
        · rw [hsuf] at hps
          simp at hps
        · rw [hsuf] at hps
          dsimp only at hps
          have hst : t = s₁ := congrArg Prod.snd hps
          subst hst
          have hver : verify_primary_selection t msg.instId np li = true :=
            congrArg Prod.fst hps
          have hnp : np = who_is_the_next_primary t msg.instId := by
            unfold verify_primary_selection at hver
            exact of_decide_eq_true hver
          have hfields := track_snd_fields s msg.instId
            (generateName sender msg.instId) msg.name msg.ledgerInfo
          rw [htr] at hfields
          dsimp only at hfields
          have hf : t.f = s.f := hfields.2.1
          have hwt : WF t := by
            have hw := @WF_track s msg.instId (generateName sender msg.instId)
              msg.name msg.ledgerInfo hwf
            rw [htr] at hw
            exact hw
          have hq1 : get_strong_quorum s.f
              ≤ (declarations_of t msg.instId).length := by
            have h2a : decide (get_strong_quorum t.f
                ≤ (declarations_of t msg.instId).length) = true := h2.1
            have := of_decide_eq_true h2a
            rwa [hf] at this
          have h2b : (alookup (declarations_of t msg.instId)
              (who_is_the_next_primary t msg.instId)).isSome = true := h2.2
          have hsuf' : mostCommonElement
                ((declarations_of t msg.instId).map Prod.snd) = some (np, li) ∧
              get_strong_quorum t.f
                ≤ countEq ((declarations_of t msg.instId).map Prod.snd) (np, li) := by
            simp only [has_sufficient_same_view_change_done_messages] at hsuf
            rcases hmce : mostCommonElement
                ((declarations_of t msg.instId).map Prod.snd) with _ | q
            · rw [hmce] at hsuf
              simp at hsuf
            · obtain ⟨np', li'⟩ := q
              rw [hmce] at hsuf
              dsimp only at hsuf
              by_cases hcnt : get_strong_quorum t.f
                  ≤ countEq ((declarations_of t msg.instId).map Prod.snd) (np', li')
              · rw [if_pos hcnt] at hsuf
                rw [Option.some_inj, Prod.mk.injEq] at hsuf
                obtain ⟨rfl, rfl⟩ := hsuf
                exact ⟨rfl, hcnt⟩
              · rw [if_neg hcnt] at hsuf
                cases hsuf
          obtain ⟨hmem, hmax⟩ := mostCommonElement_spec hsuf'.1
          refine ⟨?_, ?_, ?_, (np, li), hmem, hmax, ?_, hnp⟩
          · rcases hd : alookup t.view_change_done msg.instId with _ | m
            · simp [declarations_of, hd]
            · have : (m.map Prod.fst).Nodup :=
                hwt.2 (msg.instId, m) (alookup_mem hd)
              simpa [declarations_of, hd] using this
          · rw [List.length_map]
            exact hq1
          · exact (alookup_isSome_iff _ _).mp h2b
          · rw [← hf]
            exact hsuf'.2
      · rw [if_pos h2] at hps
        simp at hps

/-- Witness for C1: the third matching vote (from `D`, after `B` and `C`)
decides, and all four conditions hold on the resulting ledger. -/
theorem C1_decision_conditions_witness :
    ((declarations_of (processViewChangeDoneMessage sBC voteB "D").2 0).map
      Prod.fst).Nodup ∧
    get_strong_quorum sBC.f ≤
      ((declarations_of (processViewChangeDoneMessage sBC voteB "D").2 0).map
        Prod.fst).length ∧
    who_is_the_next_primary (processViewChangeDoneMessage sBC voteB "D").2 0
      ∈ (declarations_of (processViewChangeDoneMessage sBC voteB "D").2 0).map
        Prod.fst ∧
    ∃ p : ReplicaName × LedgerInfo,
      p ∈ (declarations_of (processViewChangeDoneMessage sBC voteB "D").2 0).map
        Prod.snd ∧
      (∀ q ∈ (declarations_of (processViewChangeDoneMessage sBC voteB "D").2 0).map
          Prod.snd,
        countEq ((declarations_of (processViewChangeDoneMessage sBC voteB "D").2 0).map
          Prod.snd) q
          ≤ countEq ((declarations_of (processViewChangeDoneMessage sBC voteB "D").2 0).map
            Prod.snd) p) ∧
      get_strong_quorum sBC.f
        ≤ countEq ((declarations_of (processViewChangeDoneMessage sBC voteB "D").2 0).map
          Prod.snd) p ∧
      p.1 = who_is_the_next_primary (processViewChangeDoneMessage sBC voteB "D").2 0 :=
  C1_decision_conditions sBC voteB "D" (processViewChangeDoneMessage sBC voteB "D").2
    (by decide) (by decide)

/-! Lemmas for `get_msgs_for_lagged_nodes` (C8). -/

theorem lagged_filter_nil (nm : String) (vn : Nat) (i : Nat)
    (l : List (Nat × VoteMap)) (hni : i ∉ l.map Prod.fst) :
    (l.filterMap (fun p => (alookup p.2 (generateName nm p.1)).map
        (fun d => ViewChangeDone.mk d.1 p.1 vn d.2))).filter
      (fun m => m.instId == i) = [] := by
  rw [List.filter_eq_nil_iff]
  intro m hm
  rcases List.mem_filterMap.mp hm with ⟨p, hp, hpm⟩
  rcases Option.map_eq_some'.mp hpm with ⟨d, _, hmd⟩
  have hmi : m.instId = p.1 := by rw [← hmd]
  simp only [hmi, beq_iff_eq]
  intro h'
  exact hni (h' ▸ List.mem_map_of_mem Prod.fst hp)

theorem lagged_filter (nm : String) (vn : Nat) (i : Nat) :
    ∀ l : List (Nat × VoteMap), (l.map Prod.fst).Nodup →
    (l.filterMap (fun p => (alookup p.2 (generateName nm p.1)).map
        (fun d => ViewChangeDone.mk d.1 p.1 vn d.2))).filter
      (fun m => m.instId == i) =
    match alookup ((alookup l i).getD []) (generateName nm i) with
    | some d => [ViewChangeDone.mk d.1 i vn d.2]
    | none => [] := by
  intro l
  induction l with
  | nil =>
      intro _
      rfl
  | cons p tl ih =>
      intro hnd
      obtain ⟨j, m⟩ := p
      rw [List.map_cons, List.nodup_cons] at hnd
      obtain ⟨hj, htl⟩ := hnd
      by_cases hji : j = i
      · subst hji
        rcases hlm : alookup m (generateName nm j) with _ | d
        · simp only [List.filterMap_cons, hlm, Option.map_none']
          rw [lagged_filter_nil nm vn j tl hj]
          have hcons : alookup ((j, m) :: tl) j = some m := by
            simp [alookup]
          rw [hcons, Option.getD_some, hlm]
        · simp only [List.filterMap_cons, hlm, Option.map_some']
          rw [List.filter_cons_of_pos (by simp)]
          rw [lagged_filter_nil nm vn j tl hj]
          have hcons : alookup ((j, m) :: tl) j = some m := by
            simp [alookup]
          rw [hcons, Option.getD_some, hlm]
      · have hcons : alookup ((j, m) :: tl) i = alookup tl i := by
          simp [alookup, hji]
        rcases hlm : alookup m (generateName nm j) with _ | d
        · simp only [List.filterMap_cons, hlm, Option.map_none']
          rw [ih htl, hcons]
        · simp only [List.filterMap_cons, hlm, Option.map_some']
          rw [List.filter_cons_of_neg (by simp [hji])]
          rw [ih htl, hcons]

/-- C8: for every instance id `i`, `get_msgs_for_lagged_nodes` yields
exactly one `ViewChangeDone` when this node's self-vote for `i` is recorded
— carrying that self-vote's claimed primary and ledger info together with
the node's current view number — and none otherwise. -/
theorem C8_catch_up_messages (s : SelectorState)
    (hout : (s.view_change_done.map Prod.fst).Nodup) (i : Nat) :
    (get_msgs_for_lagged_nodes s).filter (fun m => m.instId == i) =
      match recorded_vote s i (generateName s.name i) with
      | some d => [ViewChangeDone.mk d.1 i s.viewNo d.2]
      | none => [] := by
  unfold get_msgs_for_lagged_nodes recorded_vote declarations_of
  exact lagged_filter s.name s.viewNo i s.view_change_done hout

/-- Witness for C8: after `_startSelection`, node `A`'s catch-up contains
exactly the self-vote message for instance 0 and nothing for instance 3. -/
theorem C8_catch_up_messages_witness :
    (get_msgs_for_lagged_nodes sSelf).filter (fun m => m.instId == 0)
      = [ViewChangeDone.mk ⟨"B", 0⟩ 0 1 li0] ∧
    (get_msgs_for_lagged_nodes sSelf).filter (fun m => m.instId == 3) = [] := by
  constructor
  · rw [C8_catch_up_messages sSelf (by decide) 0]
    decide
  · rw [C8_catch_up_messages sSelf (by decide) 3]
    decide

/-! Lemmas for `_startSelection` (C9). -/

theorem send_preserves_primaries (s : SelectorState) (i : Nat)
    (np : ReplicaName) (vn : Nat) :
    (send_view_change_done_message s i np vn).primaries = s.primaries := by
  unfold send_view_change_done_message
  exact (track_snd_fields s i (generateName s.name i) np
    s.ledgerInfo).2.2.2.2.2.2.1

theorem selection_step_primaries (s : SelectorState) (i : Nat) :
    (selection_step s i).primaries
      = s.primaries.set i (some (who_is_the_next_primary s i)) := by
  by_cases h : i = 0 <;>
    simp [selection_step, h, send_preserves_primaries]

theorem drop_set_of_lt {α : Type} :
    ∀ (l : List α) (i j : Nat) (a : α), i < j → (l.set i a).drop j = l.drop j
  | [], _, _, _, _ => by simp
  | _ :: _, _, 0, _, h => absurd h (Nat.not_lt_zero _)
  | _x :: tl, 0, _ + 1, a, _ => by simp [List.set]
  | x :: tl, i + 1, j + 1, a, h => by
      simp only [List.set, List.drop_succ_cons]
      exact drop_set_of_lt tl i j a (Nat.lt_of_succ_lt_succ h)

theorem startSelectionFrom_count :
    ∀ (fuel : Nat) (s : SelectorState) (i : Nat),
      s.primaries.length ≤ i + fuel →
      (startSelectionFrom s i fuel).2
        = (s.primaries.drop i).countP (fun o => o.isNone) := by
  intro fuel
  induction fuel with
  | zero =>
      intro s i h
      rw [List.drop_eq_nil_of_le (by omega)]
      rfl
  | succ fuel ih =>
      intro s i h
      rw [startSelectionFrom]
      by_cases hi : i < s.primaries.length
      · rw [dif_pos hi]
        have hdrop : s.primaries.drop i
            = s.primaries.get ⟨i, hi⟩ :: s.primaries.drop (i + 1) := by
          rw [List.drop_eq_getElem_cons hi, List.get_eq_getElem]
        rcases hg : s.primaries.get ⟨i, hi⟩ with _ | p
        · dsimp only
          have hlen : (selection_step s i).primaries.length ≤ (i + 1) + fuel := by
            rw [selection_step_primaries, List.length_set]
            omega
          rw [ih (selection_step s i) (i + 1) hlen]
          rw [selection_step_primaries]
          rw [drop_set_of_lt _ _ _ _ (Nat.lt_succ_self i)]
          rw [hdrop, hg, List.countP_cons]
          simp
        · dsimp only
          rw [ih s (i + 1) (by omega)]
          rw [hdrop, hg, List.countP_cons]
          simp
      · rw [dif_neg hi]
        rw [List.drop_eq_nil_of_le (by omega)]
        rfl

/-- Counterexample to C9 as stated: with two instances both lacking a
primary, one `_startSelection` call decides both instances and calls
`node.primary_found()` twice, not exactly once. -/
theorem C9_counterexample :
    (startSelection s9).2 = 2 ∧
    (startSelection s9).1.primaries = [some ⟨"B", 0⟩, some ⟨"C", 1⟩] := by
  decide

/-- C9 (amended): during `_startSelection`, `node.primary_found()` is
called once per instance that gets its primary decided there — i.e.,
exactly as many times as there are instances without a primary at entry —
so with two or more undecided instances it is called more than once within
the same view. -/
theorem C9_primary_found_per_instance (s : SelectorState) :
    (startSelection s).2 = s.primaries.countP (fun o => o.isNone) := by
  unfold startSelection
  rw [startSelectionFrom_count s.primaries.length s 0 (by omega)]
  rfl

end PlenumPrimarySelector
